import Mathlib

/-!
Verification development for the `crown-dev-studios/simple-auth` repository.

The definitions below are a shallow embedding of:

* `packages/simple-auth-server-ts/src/otp/otpService.ts` — OTP generation,
  rate limiting and verification over a Redis-like single-key store;
* `packages/simple-auth-server-ts/src/session/authSessionService.ts` —
  onboarding-session store;
* `packages/simple-auth-react-native/src/tokenManager.ts` together with
  `src/tokenStore.ts` and `src/types.ts` — the client token lifecycle
  manager and its refresh coalescing;
* `packages/shared-types/src/auth.ts` — the wire schemas used by refresh.

Conventions: JS numbers that the code uses as integers (timestamps, TTLs,
counters) are embedded as `Int`; array indices and lengths as `Nat`.
JSON-serialised store values are embedded as a sum type that distinguishes
the three cases the services branch on: a value `JSON.parse` rejects, a
value that parses but fails the zod schema, and a schema-valid record.
Each store-touching operation additionally returns the list of Redis
commands it issued, in order, so that claims about which keys are read,
written or deleted can be stated.
-/

namespace SimpleAuth

/-- JS `s.charCodeAt(i) || 0`: the code unit at `i`, or `0` out of range
(`charCodeAt` yields `NaN` out of range and `NaN || 0` is `0`). -/
def charCodeAt (s : String) (i : Nat) : Nat :=
  match s.data[i]? with
  | some c => c.toNat
  | none => 0

/-- `constantTimeEqual` from `otpService.ts` (lines 38-45): xor-accumulating
comparison of the two strings. -/
def constantTimeEqual (a b : String) : Bool :=
  let maxLength := max a.length b.length
  List.foldl (fun result i => result ||| (charCodeAt a i ^^^ charCodeAt b i))
    (a.length ^^^ b.length) (List.range maxLength) == 0

theorem or_eq_zero_iff (m n : Nat) : m ||| n = 0 ↔ m = 0 ∧ n = 0 := by
  constructor
  · intro h
    have hm : ∀ k, m.testBit k = false := by
      intro k
      have := congrArg (fun x => Nat.testBit x k) h
      simp [Nat.testBit_lor] at this
      exact this.1
    have hn : ∀ k, n.testBit k = false := by
      intro k
      have := congrArg (fun x => Nat.testBit x k) h
      simp [Nat.testBit_lor] at this
      exact this.2
    exact ⟨Nat.eq_of_testBit_eq (fun k => by simp [hm k]),
           Nat.eq_of_testBit_eq (fun k => by simp [hn k])⟩
  · rintro ⟨rfl, rfl⟩
    rfl

theorem foldl_or_eq_zero (f : Nat → Nat) (l : List Nat) (init : Nat) :
    (List.foldl (fun acc i => acc ||| f i) init l = 0) ↔
      (init = 0 ∧ ∀ i ∈ l, f i = 0) := by
  induction l generalizing init with
  | nil => simp
  | cons x xs ih =>
    rw [List.foldl_cons, ih, or_eq_zero_iff]
    constructor
    · rintro ⟨⟨h1, h2⟩, h3⟩
      refine ⟨h1, fun i hi => ?_⟩
      rcases List.mem_cons.mp hi with rfl | hi
      · exact h2
      · exact h3 i hi
    · rintro ⟨h1, h2⟩
      exact ⟨⟨h1, h2 x (List.mem_cons_self x xs)⟩,
             fun i hi => h2 i (List.mem_cons_of_mem x hi)⟩

theorem charCodeAt_eq_of_mem (s : String) (i : Nat) (c : Char)
    (h : s.data[i]? = some c) : charCodeAt s i = c.toNat := by
  simp [charCodeAt, h]

theorem charCodeAt_eq_zero_of_ge (s : String) (i : Nat) (h : s.data.length ≤ i) :
    charCodeAt s i = 0 := by
  simp [charCodeAt, List.getElem?_eq_none h]

/-- The xor-accumulating comparison decides string equality: with code units
embedded as full code points, `constantTimeEqual` is `true` exactly on equal
strings. -/
theorem constantTimeEqual_eq_true_iff (a b : String) :
    constantTimeEqual a b = true ↔ a = b := by
  have hrfl : constantTimeEqual a b =
      (List.foldl (fun acc i => acc ||| (fun i => charCodeAt a i ^^^ charCodeAt b i) i)
        (a.length ^^^ b.length) (List.range (max a.length b.length)) == 0) := rfl
  rw [hrfl, beq_iff_eq,
    foldl_or_eq_zero (fun i => charCodeAt a i ^^^ charCodeAt b i)]
  constructor
  · rintro ⟨hlen, hchar⟩
    have hlen' : a.length = b.length := Nat.xor_eq_zero.mp hlen
    have hdata : a.data = b.data := by
      apply List.ext_getElem?
      intro i
      by_cases hi : i < a.data.length
      · have hib : i < b.data.length := by
          have : a.data.length = b.data.length := hlen'
          omega
        have hmem : i ∈ List.range (max a.length b.length) := by
          rw [List.mem_range]
          have : a.length = a.data.length := rfl
          omega
        have hx := hchar i hmem
        have hcc : charCodeAt a i = charCodeAt b i := Nat.xor_eq_zero.mp hx
        obtain ⟨ca, hca⟩ : ∃ ca, a.data[i]? = some ca :=
          ⟨_, List.getElem?_eq_getElem hi⟩
        obtain ⟨cb, hcb⟩ : ∃ cb, b.data[i]? = some cb :=
          ⟨_, List.getElem?_eq_getElem hib⟩
        rw [charCodeAt_eq_of_mem a i ca hca, charCodeAt_eq_of_mem b i cb hcb] at hcc
        rw [hca, hcb, Char.ext (UInt32.ext hcc)]
      · have hib : ¬ i < b.data.length := by
          have : a.data.length = b.data.length := hlen'
          omega
        rw [List.getElem?_eq_none (by omega), List.getElem?_eq_none (by omega)]
    cases a
    cases b
    cases hdata
    rfl
  · rintro rfl
    exact ⟨Nat.xor_self _, fun i _ => Nat.xor_self _⟩

theorem constantTimeEqual_self (a : String) : constantTimeEqual a a = true :=
  (constantTimeEqual_eq_true_iff a a).mpr rfl

theorem constantTimeEqual_eq_false_of_ne {a b : String} (h : a ≠ b) :
    constantTimeEqual a b = false := by
  rcases hb : constantTimeEqual a b with _ | _
  · rfl
  · exact absurd ((constantTimeEqual_eq_true_iff a b).mp hb) h

/-! Identifier normalization, `otpService.ts` lines 27-29.  JS
`toLowerCase`/`trim` are embedded per character; `trim` drops the JS
whitespace characters from both ends, `replace(/[^\d+]/g, "")` keeps exactly
the characters matching `[\d+]`. -/

/-- The characters JS `String.prototype.trim` (and `\s`) treats as
whitespace (the ASCII ones plus the common Unicode ones). -/
def jsIsWhitespace (c : Char) : Bool :=
  c == ' ' || c == '\t' || c == '\n' || c == '\r' ||
  c.toNat == 0xb || c.toNat == 0xc || c.toNat == 0xa0 ||
  c.toNat == 0x2028 || c.toNat == 0x2029 || c.toNat == 0xfeff

/-- JS `String.prototype.toLowerCase`, restricted to the ASCII mapping
(sufficient for every identifier and hex character the services handle). -/
def jsToLower (s : String) : String := ⟨s.data.map Char.toLower⟩

/-- JS `String.prototype.trim`: drop whitespace from both ends. -/
def jsTrim (s : String) : String :=
  ⟨((s.data.dropWhile jsIsWhitespace).reverse.dropWhile jsIsWhitespace).reverse⟩

/-- `normalizeEmail` (`otpService.ts` line 27): `email.toLowerCase().trim()`. -/
def normalizeEmail (email : String) : String := jsTrim (jsToLower email)

/-- `normalizePhone` (`otpService.ts` line 29):
`phone.replace(/[^\d+]/g, "")` — keep every digit and every plus sign. -/
def normalizePhone (phone : String) : String :=
  ⟨phone.data.filter (fun c => c.isDigit || c == '+')⟩

/-! Random code generation, `otpService.ts` lines 31-36.  The raw entropy is
the single `Uint32Array` cell filled by `crypto.getRandomValues`, embedded as
a `Nat` below `2 ^ 32`; the code is `(n % 10 ** 6).toString().padStart(6, "0")`. -/

/-- The decimal digit character for `d < 10`. -/
def digitChar (d : Nat) : Char := Char.ofNat (48 + d)

/-- JS `Number.prototype.toString` (radix 10) on a nonnegative integer:
most-significant-first decimal digits, no leading zeros, `"0"` for zero. -/
def natToString (n : Nat) : String :=
  if n = 0 then "0" else ⟨((Nat.digits 10 n).reverse.map digitChar)⟩

/-- JS `String.prototype.padStart` with a single-character pad. -/
def padStart (s : String) (targetLength : Nat) (pad : Char) : String :=
  if targetLength ≤ s.length then s
  else ⟨List.replicate (targetLength - s.length) pad ++ s.data⟩

/-- `generateRandomCode` (`otpService.ts` lines 31-36) as a function of the
32-bit random value `n`:  `(n % 10 ** OTP_CODE_LENGTH)` rendered in decimal
and left-padded with zeros to 6 characters (`OTP_CODE_LENGTH = 6`). -/
def generateRandomCode (n : Nat) : String :=
  padStart (natToString (n % 10 ^ 6)) 6 '0'

/-! The OTP store model.  `verifyOtp`/`generateOtp` touch a single OTP key
and a single rate-limit key; a key's state is its value together with the
remaining TTL in seconds that `redis.ttl` would report (`≤ 0` models the
race window in which the key still answers `get` but its TTL is gone). -/

/-- `StoredOtp` (`otpService.ts` lines 6-12). -/
structure StoredOtp where
  code : String
  attempts : Int
  createdAt : Int
  deriving DecidableEq, Repr

/-- The value under an OTP key, as seen through `JSON.parse` +
`StoredOtpSchema.safeParse`: unparseable JSON, parseable but schema-invalid
JSON, or a schema-valid record. -/
inductive OtpVal where
  | notJson
  | badSchema
  | valid (r : StoredOtp)
  deriving DecidableEq, Repr

/-- State of one key: absent, or value plus remaining TTL in seconds. -/
abbrev OtpEntry := Option (OtpVal × Int)

/-- A Redis command issued by the services, in the order issued. -/
inductive RedisOp where
  | get (key : String)
  | setex (key : String) (seconds : Int)
  | del (key : String)
  | incr (key : String)
  | expire (key : String) (seconds : Int)
  | ttl (key : String)
  deriving DecidableEq, Repr

/-- `OtpError` (`otp/types.ts`), with the human-readable message the service
attaches (the `EXPIRED` variant is declared in `types.ts` but never produced
by `otpService.ts`). -/
inductive OtpError where
  | rateLimited (message : String) (retryAfterSeconds : Int)
  | invalidCode (message : String) (attemptsRemaining : Int)
  | expired (message : String)
  | maxAttempts (message : String)
  | notFound (message : String)
  deriving DecidableEq, Repr

/-- `OtpResult<T>` (`otp/types.ts`). -/
inductive OtpResult (α : Type) where
  | ok (data : α)
  | err (e : OtpError)
  deriving DecidableEq, Repr

def msgNotFound : String := "No OTP found. Please request a new code."

def msgMaxAttempts : String :=
  "Maximum verification attempts exceeded. Please request a new code."

def msgInvalidCode : String := "Invalid code. Please try again."

def msgRateLimited : String := "Too many OTP requests. Please wait before trying again."

/-- `OtpService.verifyOtp` (`otpService.ts` lines 131-198), acting on the
state of the single key it derives.  Returns the result, the new state of
that key, and the Redis commands issued.  Branches, in source order:
missing record; `JSON.parse` failure (delete); schema failure (delete);
`attempts >= maxAttempts` (delete); `ttl <= 0` (delete); increment attempts
and write back with the same remaining TTL; then constant-time compare —
mismatch errors with `attemptsRemaining`, match deletes the key. -/
def verifyOtp (maxAttempts : Int) (key : String) (entry : OtpEntry) (code : String) :
    OtpResult Unit × OtpEntry × List RedisOp :=
  match entry with
  | none => (.err (.notFound msgNotFound), none, [.get key])
  | some (.notJson, _) => (.err (.notFound msgNotFound), none, [.get key, .del key])
  | some (.badSchema, _) => (.err (.notFound msgNotFound), none, [.get key, .del key])
  | some (.valid r, ttl) =>
    if maxAttempts ≤ r.attempts then
      (.err (.maxAttempts msgMaxAttempts), none, [.get key, .del key])
    else if ttl ≤ 0 then
      (.err (.notFound msgNotFound), none, [.get key, .ttl key, .del key])
    else
      let updated : StoredOtp := { r with attempts := r.attempts + 1 }
      if constantTimeEqual r.code code then
        (.ok (), none, [.get key, .ttl key, .setex key ttl, .del key])
      else
        (.err (.invalidCode msgInvalidCode (maxAttempts - updated.attempts)),
          some (.valid updated, ttl), [.get key, .ttl key, .setex key ttl])

/-- `OtpServiceOptions.env`. -/
inductive Env where
  | production
  | development
  | test
  deriving DecidableEq, Repr

/-- `OtpServiceOptions` (`otp/types.ts`), with the nested option groups
flattened; `none` means the option is absent and the default applies.  Key
namespace options are spelled `keyPref…` here. -/
structure OtpServiceOptions where
  env : Env
  bypassCode : Option String := none
  ttlSeconds : Option Int := none
  maxAttempts : Option Int := none
  rateLimitWindowSeconds : Option Int := none
  rateLimitMaxRequests : Option Int := none
  keyPrefEmail : Option String := none
  keyPrefPhone : Option String := none
  keyPrefRateLimit : Option String := none

/-- `shouldBypass` (`otpService.ts` lines 47-49): never in production, and
only when a bypass code is configured (`Boolean("")` is `false`). -/
def shouldBypass (env : Env) (bypassCode : Option String) : Bool :=
  env ≠ Env.production && (match bypassCode with
    | some c => c ≠ ""
    | none => false)

inductive OtpType where
  | email
  | phone
  deriving DecidableEq, Repr

def otpTypeStr : OtpType → String
  | .email => "email"
  | .phone => "phone"

/-- The OTP key `{prefix}{identifier}` (`otpService.ts` lines 125, 143). -/
def otpKey (opts : OtpServiceOptions) (type : OtpType) (identifier : String) : String :=
  (match type with
    | .email => opts.keyPrefEmail.getD "otp:email:"
    | .phone => opts.keyPrefPhone.getD "otp:phone:") ++ identifier

/-- The rate-limit key `{rateLimitPrefix}{type}:{identifier}`
(`otpService.ts` line 107). -/
def rateKey (opts : OtpServiceOptions) (type : OtpType) (identifier : String) : String :=
  opts.keyPrefRateLimit.getD "rate:otp:" ++ otpTypeStr type ++ ":" ++ identifier

/-- State of the two keys one `generateOtp` call touches: the rate-limit
counter (value and TTL; `incr` creates an absent key with no expiry,
reported as TTL `-1`) and the OTP record key. -/
structure OtpKeyState where
  rate : Option (Int × Int)
  otp : OtpEntry
  deriving Repr

/-- `checkRateLimit` (`otpService.ts` lines 51-68): `incr`; on the first
increment in the window, `expire` to the window length; if the new count
exceeds `maxRequests`, read the TTL and refuse with
`retryAfterSeconds = max ttl 1`.  Returns `none` when allowed, or the
retry-after seconds when refused, plus the new counter state and trace. -/
def checkRateLimit (windowSeconds maxRequests : Int) (key : String)
    (rate : Option (Int × Int)) :
    Option Int × Option (Int × Int) × List RedisOp :=
  let count : Int := (match rate with | none => 0 | some (c, _) => c) + 1
  let afterIncr : Option (Int × Int) :=
    some (count, match rate with | none => -1 | some (_, t) => t)
  let afterExpire : Option (Int × Int) :=
    if count = 1 then some (count, windowSeconds) else afterIncr
  let trace : List RedisOp :=
    if count = 1 then [.incr key, .expire key windowSeconds] else [.incr key]
  if maxRequests < count then
    let t : Int := (afterExpire.map Prod.snd).getD (-2)
    (some (max t 1), afterExpire, trace ++ [.ttl key])
  else
    (none, afterExpire, trace)

/-- `OtpService.generateOtp` (`otpService.ts` lines 96-129): rate limit
first; on refusal return `RATE_LIMITED` with `retryAfterSeconds`; otherwise
pick the bypass code (outside production, when configured) or a fresh
random code from the 32-bit value `randomValue`, and unconditionally
`setex` `{code, attempts: 0, createdAt: now}` under the OTP key with the
configured TTL. -/
def generateOtp (opts : OtpServiceOptions) (type : OtpType) (identifier : String)
    (randomValue : Nat) (now : Int) (st : OtpKeyState) :
    OtpResult String × OtpKeyState × List RedisOp :=
  let ttlSeconds := opts.ttlSeconds.getD 300
  let windowSeconds := opts.rateLimitWindowSeconds.getD 60
  let maxRequests := opts.rateLimitMaxRequests.getD 3
  match checkRateLimit windowSeconds maxRequests (rateKey opts type identifier) st.rate with
  | (some retryAfterSeconds, rate1, tr1) =>
    (.err (.rateLimited msgRateLimited retryAfterSeconds),
      { rate := rate1, otp := st.otp }, tr1)
  | (none, rate1, tr1) =>
    let code := if shouldBypass opts.env opts.bypassCode
      then opts.bypassCode.getD ""
      else generateRandomCode randomValue
    let key := otpKey opts type identifier
    (.ok code,
      { rate := rate1, otp := some (.valid ⟨code, 0, now⟩, ttlSeconds) },
      tr1 ++ [.setex key ttlSeconds])

/-! The onboarding-session store, `authSessionService.ts`. -/

inductive OAuthProvider where
  | google
  | apple
  deriving DecidableEq, Repr

/-- `PendingOAuthSchema` (`authSessionService.ts` lines 10-17).  `rawData`
is `z.record(z.string(), z.unknown())`; the service never inspects it, only
round-trips it, so its unknown values are embedded as strings. -/
structure PendingOAuth where
  provider : OAuthProvider
  sub : String
  email : String
  emailVerified : Option Bool := none
  rawData : List (String × String) := []
  refreshToken : Option String := none
  deriving DecidableEq, Repr

/-- `AuthSessionSchema` (`authSessionService.ts` lines 21-30).  A
`.nullable().optional()` field is an `Option (Option _)`: absent, `null`,
or a value. -/
structure AuthSession where
  email : String
  emailVerified : Bool
  phoneNumber : Option String
  phoneVerified : Bool
  createdAt : Int
  expiresAt : Int
  pendingOAuth : Option (Option PendingOAuth) := none
  existingUserId : Option (Option String) := none
  deriving DecidableEq, Repr

/-- The value under a session key through `JSON.parse` +
`AuthSessionSchema.safeParse`. -/
inductive SessionVal where
  | notJson
  | badSchema
  | valid (s : AuthSession)
  deriving DecidableEq, Repr

abbrev SessionEntry := Option (SessionVal × Int)

/-- `SessionResult<T>` (`authSessionService.ts` line 34): the failure
carries only the error string, which is therefore the externally visible
error. -/
inductive SessionResult (α : Type) where
  | ok (data : α)
  | err (error : String)
  deriving DecidableEq, Repr

/-- `normalizeSessionId` (`authSessionService.ts` line 8):
`sessionId.trim().toLowerCase()`. -/
def normalizeSessionId (sessionId : String) : String := jsToLower (jsTrim sessionId)

/-- One character of `SESSION_ID_REGEX = /^[0-9a-f]{64}$/i`. -/
def isHexDigitCI (c : Char) : Bool :=
  c.isDigit || ('a' ≤ c && c ≤ 'f') || ('A' ≤ c && c ≤ 'F')

/-- `SESSION_ID_REGEX.test`: exactly 64 hex characters, case-insensitive. -/
def sessionIdShapeOk (s : String) : Bool :=
  s.length == 64 && s.data.all isHexDigitCI

/-- `AuthSessionService.getSession` (`authSessionService.ts` lines 77-106),
acting on the state of the one key it derives: reject malformed identifiers
before any store access; absent key; corrupt or schema-invalid value
(delete); embedded `expiresAt` passed (delete); otherwise return the
session. -/
def getSession (keyPref sessionId : String) (entry : SessionEntry) (now : Int) :
    SessionResult AuthSession × SessionEntry × List RedisOp :=
  let nid := normalizeSessionId sessionId
  if !(sessionIdShapeOk nid) then
    (.err "Session not found or expired", entry, [])
  else
    let key := keyPref ++ nid
    match entry with
    | none => (.err "Session not found or expired", none, [.get key])
    | some (.notJson, _) =>
      (.err "Session corrupted, please start over", none, [.get key, .del key])
    | some (.badSchema, _) =>
      (.err "Session corrupted, please start over", none, [.get key, .del key])
    | some (.valid s, t) =>
      if s.expiresAt < now then
        (.err "Session expired", none, [.get key, .del key])
      else
        (.ok s, some (.valid s, t), [.get key])

/-- `AuthSessionService.updateSession` (`authSessionService.ts` lines
108-138): reject malformed identifiers before any store access; absent key;
corrupt or schema-invalid value (delete); otherwise apply the updater, read
the key's remaining TTL, and — only when that TTL is positive — write the
transformed session back with exactly that TTL; either way succeed. -/
def updateSession (keyPref sessionId : String) (updater : AuthSession → AuthSession)
    (entry : SessionEntry) :
    SessionResult Unit × SessionEntry × List RedisOp :=
  let nid := normalizeSessionId sessionId
  if !(sessionIdShapeOk nid) then
    (.err "Session not found", entry, [])
  else
    let key := keyPref ++ nid
    match entry with
    | none => (.err "Session not found", none, [.get key])
    | some (.notJson, _) =>
      (.err "Session corrupted, please start over", none, [.get key, .del key])
    | some (.badSchema, _) =>
      (.err "Session corrupted, please start over", none, [.get key, .del key])
    | some (.valid s, t) =>
      if 0 < t then
        (.ok (), some (.valid (updater s), t), [.get key, .ttl key, .setex key t])
      else
        (.ok (), some (.valid s, t), [.get key, .ttl key])

/-- `AuthSessionService.deleteSession` (`authSessionService.ts` lines
140-146): no-op for malformed identifiers, otherwise delete the key. -/
def deleteSession (keyPref sessionId : String) (entry : SessionEntry) :
    SessionEntry × List RedisOp :=
  let nid := normalizeSessionId sessionId
  if !(sessionIdShapeOk nid) then (entry, [])
  else (none, [.del (keyPref ++ nid)])

/-! The client token lifecycle manager, `tokenManager.ts`, together with
the `StoredTokensSchema` validation that the repository's secure-store
`TokenStore` (`tokenStore.ts` + `types.ts`) applies inside `setTokens`. -/

/-- `StoredTokens` (`simple-auth-react-native/src/types.ts`). -/
structure StoredTokens where
  accessToken : String
  refreshToken : String
  expiresAt : Int
  deriving DecidableEq, Repr

/-- `StoredTokensSchema`: `accessToken`/`refreshToken` are `.min(1)`
strings, `expiresAt` an integer (the `Int` type carries the `.int()`
refinement). -/
def storedTokensSchemaOk (t : StoredTokens) : Bool :=
  1 ≤ t.accessToken.length && 1 ≤ t.refreshToken.length

/-- `AuthTokens` (`shared-types/src/auth.ts` lines 18-23). -/
structure AuthTokens where
  accessToken : String
  refreshToken : String
  expiresIn : Int
  deriving DecidableEq, Repr

/-- One field of the JSON object the refresh endpoint answered with, as zod
sees it: a string, a number, absent, or present with some other type. -/
inductive JsonField where
  | str (value : String)
  | num (value : Int)
  | missing
  | other
  deriving DecidableEq, Repr

/-- The raw refresh response prior to validation. -/
structure RawRefreshResponse where
  accessToken : JsonField
  refreshToken : JsonField
  expiresIn : JsonField
  deriving DecidableEq, Repr

/-- `RefreshResponseSchema.parse` (`shared-types/src/auth.ts` line 75,
aliasing `AuthTokensSchema`): all three fields must be present with the
right primitive type; plain `z.string()` accepts the empty string. -/
def parseRefreshResponse (r : RawRefreshResponse) : Option AuthTokens :=
  match r.accessToken, r.refreshToken, r.expiresIn with
  | .str a, .str t, .num e => some ⟨a, t, e⟩
  | _, _, _ => none

/-- JS `/\s/.test(s)`. -/
def hasWhitespace (s : String) : Bool := s.data.any jsIsWhitespace

/-- How one `refreshTokens` attempt ends (`tokenManager.ts` lines 64-107).
Every failure is a thrown error to the caller. -/
inductive RefreshFailure where
  | noRefreshToken
  | invalidRefreshTokenShape
  | responseInvalid
  | storeRejected
  deriving DecidableEq, Repr

inductive RefreshResult where
  | ok (tokens : StoredTokens)
  | error (f : RefreshFailure)
  deriving DecidableEq, Repr

/-- The body of the refresh promise in `TokenManager.refreshTokens`
(`tokenManager.ts` lines 69-103), from the stored tokens and the endpoint's
raw response: missing or empty (falsy) stored refresh token → clear and
fail; stored refresh token longer than 4096 or containing whitespace →
clear and fail; response failing `RefreshResponseSchema` → clear and fail;
otherwise build `{accessToken, refreshToken, expiresAt = now + expiresIn *
1000}` and hand it to `store.setTokens` — the repository's secure-store
implementation validates with `StoredTokensSchema` and throws on a blank
token, which the `catch` turns into clear-and-fail as well.  Returns the
outcome and the final stored-token state. -/
def refreshTokens (current : Option StoredTokens) (response : RawRefreshResponse)
    (now : Int) : RefreshResult × Option StoredTokens :=
  match current with
  | none => (.error .noRefreshToken, none)
  | some cur =>
    if cur.refreshToken = "" then
      (.error .noRefreshToken, none)
    else if 4096 < cur.refreshToken.length || hasWhitespace cur.refreshToken then
      (.error .invalidRefreshTokenShape, none)
    else
      match parseRefreshResponse response with
      | none => (.error .responseInvalid, none)
      | some parsed =>
        let updated : StoredTokens :=
          ⟨parsed.accessToken, parsed.refreshToken, now + parsed.expiresIn * 1000⟩
        if storedTokensSchemaOk updated then (.ok updated, some updated)
        else (.error .storeRejected, none)

/-! The refresh-coalescing discipline of `TokenManager`
(`tokenManager.ts` lines 17, 64-107) as a step relation.  The manager runs
on a single-threaded event loop: the prologue of `refreshTokens` — reading
`inFlightRefresh`, and, when it is `null`, creating the refresh promise
(which performs exactly one `api.refresh` request) and storing it — runs
atomically before the first `await`; the promise's `finally` clears the
slot when the refresh settles.  A state records the slot, the requests
issued so far, which request each caller awaits and each settled request's
outcome. -/

/-- Outcome a settled refresh delivers to every caller awaiting it. -/
inductive SettledOutcome where
  | success (tokens : StoredTokens)
  | failure (f : RefreshFailure)
  deriving DecidableEq, Repr

structure TokenManagerState where
  inFlight : Option Nat
  nextId : Nat
  requests : List Nat
  waiters : List (Nat × Nat)
  settledOutcomes : List (Nat × SettledOutcome)
  deriving DecidableEq, Repr

def TokenManagerState.init : TokenManagerState := ⟨none, 0, [], [], []⟩

/-- A caller invokes `refreshTokens` (or `getAccessToken` past its expiry
leeway, which awaits `refreshTokens()`): if a refresh is in flight the
caller just awaits that same promise; otherwise a fresh request is issued
to the refresh endpoint and parked in `inFlightRefresh`. -/
def stepCall (s : TokenManagerState) (caller : Nat) : TokenManagerState :=
  match s.inFlight with
  | some rid =>
    { s with waiters := (caller, rid) :: s.waiters }
  | none =>
    let rid := s.nextId
    { inFlight := some rid
      nextId := rid + 1
      requests := rid :: s.requests
      waiters := (caller, rid) :: s.waiters
      settledOutcomes := s.settledOutcomes }

/-- The in-flight refresh settles with outcome `o`: the `finally` clears
`inFlightRefresh`, and `o` is what every awaiting caller receives. -/
def stepSettle (s : TokenManagerState) (o : SettledOutcome) : TokenManagerState :=
  match s.inFlight with
  | some rid =>
    { s with inFlight := none, settledOutcomes := (rid, o) :: s.settledOutcomes }
  | none => s

/-! Claim theorems. -/

/-- C1: with `maxAttempts = 2`, two wrong verifies on a fresh record answer
`INVALID_CODE` with `attemptsRemaining` 1 then 0, and a third verify
answers `MAX_ATTEMPTS` with the record deleted; in general, any stored
record whose `attempts` already reached `maxAttempts` is deleted and
answered `MAX_ATTEMPTS` identically for every submitted code, without the
code comparison influencing the outcome. -/
theorem C1_attempt_bound (m : Int) (key anyCode storedCode wrong : String)
    (r : StoredOtp) (tr t createdAt : Int)
    (hne : storedCode ≠ wrong) (ht : 0 < t) :
    (m ≤ r.attempts →
      verifyOtp m key (some (.valid r, tr)) anyCode =
        (.err (.maxAttempts msgMaxAttempts), none, [.get key, .del key])) ∧
    verifyOtp 2 key (some (.valid ⟨storedCode, 0, createdAt⟩, t)) wrong =
      (.err (.invalidCode msgInvalidCode 1),
        some (.valid ⟨storedCode, 1, createdAt⟩, t),
        [.get key, .ttl key, .setex key t]) ∧
    verifyOtp 2 key (some (.valid ⟨storedCode, 1, createdAt⟩, t)) wrong =
      (.err (.invalidCode msgInvalidCode 0),
        some (.valid ⟨storedCode, 2, createdAt⟩, t),
        [.get key, .ttl key, .setex key t]) ∧
    verifyOtp 2 key (some (.valid ⟨storedCode, 2, createdAt⟩, t)) wrong =
      (.err (.maxAttempts msgMaxAttempts), none, [.get key, .del key]) := by
  have hcte : constantTimeEqual storedCode wrong = false :=
    constantTimeEqual_eq_false_of_ne hne
  have ht' : ¬ t ≤ 0 := by omega
  refine ⟨fun hm => by simp [verifyOtp, hm], ?_, ?_, ?_⟩
  · norm_num [verifyOtp, hcte, ht']
  · norm_num [verifyOtp, hcte, ht']
  · norm_num [verifyOtp]

theorem C1_attempt_bound_witness :
    (("123456" : String) ≠ "000000") ∧ ((0 : Int) < 300) ∧
    (((5 : Int) ≤ (5 : Int) →
      verifyOtp 5 "k" (some (.valid ⟨"123456", 5, 0⟩, 10)) "x" =
        (.err (.maxAttempts msgMaxAttempts), none, [.get "k", .del "k"])) ∧
     verifyOtp 2 "k" (some (.valid ⟨"123456", 0, 0⟩, 300)) "000000" =
       (.err (.invalidCode msgInvalidCode 1),
         some (.valid ⟨"123456", 1, 0⟩, 300),
         [.get "k", .ttl "k", .setex "k" 300]) ∧
     verifyOtp 2 "k" (some (.valid ⟨"123456", 1, 0⟩, 300)) "000000" =
       (.err (.invalidCode msgInvalidCode 0),
         some (.valid ⟨"123456", 2, 0⟩, 300),
         [.get "k", .ttl "k", .setex "k" 300]) ∧
     verifyOtp 2 "k" (some (.valid ⟨"123456", 2, 0⟩, 300)) "000000" =
       (.err (.maxAttempts msgMaxAttempts), none, [.get "k", .del "k"])) :=
  ⟨by decide, by decide,
    C1_attempt_bound 5 "k" "x" "123456" "000000" ⟨"123456", 5, 0⟩ 10 300 0
      (by decide) (by decide)⟩

/-- C2: a verify with the matching code on a live stored OTP deletes the
key and succeeds, and a second verify against the now-absent key answers
`NOT_FOUND`. -/
theorem C2_one_time_use (m : Int) (key : String) (r : StoredOtp) (t : Int)
    (hm : r.attempts < m) (ht : 0 < t) :
    verifyOtp m key (some (.valid r, t)) r.code =
      (.ok (), none, [.get key, .ttl key, .setex key t, .del key]) ∧
    verifyOtp m key none r.code =
      (.err (.notFound msgNotFound), none, [.get key]) := by
  refine ⟨?_, rfl⟩
  simp [verifyOtp, constantTimeEqual_self, show ¬ m ≤ r.attempts by omega,
    show ¬ t ≤ 0 by omega]

theorem C2_one_time_use_witness :
    ((0 : Int) < 5) ∧ ((0 : Int) < 300) ∧
    (verifyOtp 5 "k" (some (.valid ⟨"111111", 0, 0⟩, 300)) "111111" =
      (.ok (), none, [.get "k", .ttl "k", .setex "k" 300, .del "k"]) ∧
     verifyOtp 5 "k" none "111111" =
      (.err (.notFound msgNotFound), none, [.get "k"])) :=
  ⟨by decide, by decide,
    C2_one_time_use 5 "k" ⟨"111111", 0, 0⟩ 300 (by decide) (by decide)⟩

/-- C10: whenever the rate limit allows it, `generateOtp` succeeds and
unconditionally overwrites whatever was stored under the OTP key with
`{code, attempts: 0, createdAt: now}` at the full configured TTL — in
particular a previously exhausted or partially used attempt counter is
reset to zero. -/
theorem C10_generate_overwrites (opts : OtpServiceOptions) (type : OtpType)
    (identifier : String) (randomValue : Nat) (now : Int) (st : OtpKeyState)
    (h : (match st.rate with | none => 0 | some (c, _) => c) + 1 ≤
      opts.rateLimitMaxRequests.getD 3) :
    ∃ code,
      (generateOtp opts type identifier randomValue now st).1 = .ok code ∧
      (generateOtp opts type identifier randomValue now st).2.1.otp =
        some (.valid ⟨code, 0, now⟩, opts.ttlSeconds.getD 300) := by
  obtain ⟨rate1, tr1, heq⟩ :
      ∃ rate1 tr1,
        checkRateLimit (opts.rateLimitWindowSeconds.getD 60)
          (opts.rateLimitMaxRequests.getD 3) (rateKey opts type identifier)
          st.rate = (none, rate1, tr1) := by
    unfold checkRateLimit
    rw [if_neg (by omega)]
    exact ⟨_, _, rfl⟩
  refine ⟨if shouldBypass opts.env opts.bypassCode
    then opts.bypassCode.getD "" else generateRandomCode randomValue, ?_, ?_⟩ <;>
    simp [generateOtp, heq]

theorem C10_generate_overwrites_witness :
    ((match (some ((2 : Int), (30 : Int)) : Option (Int × Int)) with
      | none => 0 | some (c, _) => c) + 1 ≤
        (({ env := .test } : OtpServiceOptions).rateLimitMaxRequests.getD 3)) ∧
    (∃ code,
      (generateOtp { env := .test } .email "user@example.com" 5 1000
        ⟨some (2, 30), some (.valid ⟨"999999", 4, 0⟩, 7)⟩).1 = .ok code ∧
      (generateOtp { env := .test } .email "user@example.com" 5 1000
        ⟨some (2, 30), some (.valid ⟨"999999", 4, 0⟩, 7)⟩).2.1.otp =
        some (.valid ⟨code, 0, 1000⟩,
          (({ env := .test } : OtpServiceOptions).ttlSeconds.getD 300))) :=
  ⟨by decide,
    C10_generate_overwrites { env := .test } .email "user@example.com" 5 1000
      ⟨some (2, 30), some (.valid ⟨"999999", 4, 0⟩, 7)⟩ (by decide)⟩

/-- C4 (as stated, refuted): the session service surfaces corruption with
its own distinct message — at the same inputs, a corrupted record and an
absent record produce different externally visible errors. -/
theorem C4_counterexample :
    (getSession "auth_session:" ⟨List.replicate 64 'a'⟩ (some (.notJson, 60)) 0).1 =
      .err "Session corrupted, please start over" ∧
    (getSession "auth_session:" ⟨List.replicate 64 'a'⟩ none 0).1 =
      .err "Session not found or expired" ∧
    (SessionResult.err (α := AuthSession) "Session corrupted, please start over") ≠
      .err "Session not found or expired" := by
  refine ⟨by decide, by decide, by decide⟩

/-- C4 (amended): absent, corrupted and TTL-expired OTP records all produce
the identical `NOT_FOUND` error from `verifyOtp` (same code, same message),
with the key deleted on the corrupted and expired paths; for sessions, all
three paths fail and the key is likewise deleted on the corrupted and
embedded-expiry paths, but the error strings differ — `getSession` answers
"Session not found or expired", "Session corrupted, please start over" and
"Session expired" respectively, so corruption is distinguishable there. -/
theorem C4_error_uniformity (m : Int) (key code : String) (t1 t2 t3 : Int)
    (r : StoredOtp) (keyPref sid : String) (t4 t5 : Int) (s : AuthSession) (now : Int)
    (hr : r.attempts < m) (ht3 : t3 ≤ 0)
    (hid : sessionIdShapeOk (normalizeSessionId sid) = true)
    (hexp : s.expiresAt < now) :
    (verifyOtp m key none code =
      (.err (.notFound msgNotFound), none, [.get key]) ∧
     verifyOtp m key (some (.notJson, t1)) code =
      (.err (.notFound msgNotFound), none, [.get key, .del key]) ∧
     verifyOtp m key (some (.badSchema, t2)) code =
      (.err (.notFound msgNotFound), none, [.get key, .del key]) ∧
     verifyOtp m key (some (.valid r, t3)) code =
      (.err (.notFound msgNotFound), none, [.get key, .ttl key, .del key])) ∧
    (getSession keyPref sid none now =
      (.err "Session not found or expired", none,
        [.get (keyPref ++ normalizeSessionId sid)]) ∧
     getSession keyPref sid (some (.notJson, t4)) now =
      (.err "Session corrupted, please start over", none,
        [.get (keyPref ++ normalizeSessionId sid),
         .del (keyPref ++ normalizeSessionId sid)]) ∧
     getSession keyPref sid (some (.valid s, t5)) now =
      (.err "Session expired", none,
        [.get (keyPref ++ normalizeSessionId sid),
         .del (keyPref ++ normalizeSessionId sid)])) := by
  constructor
  · refine ⟨rfl, rfl, rfl, ?_⟩
    simp [verifyOtp, show ¬ m ≤ r.attempts by omega, ht3]
  · refine ⟨?_, ?_, ?_⟩ <;> simp [getSession, hid, hexp]

theorem C4_error_uniformity_witness :
    ((0 : Int) < 5) ∧ ((-1 : Int) ≤ 0) ∧
    (sessionIdShapeOk (normalizeSessionId ⟨List.replicate 64 'b'⟩) = true) ∧
    ((50 : Int) < 60) ∧
    ((verifyOtp 5 "k" none "c" =
       (.err (.notFound msgNotFound), none, [.get "k"]) ∧
      verifyOtp 5 "k" (some (.notJson, 9)) "c" =
       (.err (.notFound msgNotFound), none, [.get "k", .del "k"]) ∧
      verifyOtp 5 "k" (some (.badSchema, 9)) "c" =
       (.err (.notFound msgNotFound), none, [.get "k", .del "k"]) ∧
      verifyOtp 5 "k" (some (.valid ⟨"111111", 0, 0⟩, -1)) "c" =
       (.err (.notFound msgNotFound), none, [.get "k", .ttl "k", .del "k"])) ∧
     (getSession "auth_session:" ⟨List.replicate 64 'b'⟩ none 60 =
       (.err "Session not found or expired", none,
         [.get ("auth_session:" ++ normalizeSessionId ⟨List.replicate 64 'b'⟩)]) ∧
      getSession "auth_session:" ⟨List.replicate 64 'b'⟩ (some (.notJson, 9)) 60 =
       (.err "Session corrupted, please start over", none,
         [.get ("auth_session:" ++ normalizeSessionId ⟨List.replicate 64 'b'⟩),
          .del ("auth_session:" ++ normalizeSessionId ⟨List.replicate 64 'b'⟩)]) ∧
      getSession "auth_session:" ⟨List.replicate 64 'b'⟩
          (some (.valid ⟨"e", false, none, false, 0, 50, none, none⟩, 9)) 60 =
       (.err "Session expired", none,
         [.get ("auth_session:" ++ normalizeSessionId ⟨List.replicate 64 'b'⟩),
          .del ("auth_session:" ++ normalizeSessionId ⟨List.replicate 64 'b'⟩)]))) :=
  ⟨by decide, by decide, by decide, by decide,
    C4_error_uniformity 5 "k" "c" 9 9 (-1) ⟨"111111", 0, 0⟩ "auth_session:"
      ⟨List.replicate 64 'b'⟩ 9 9 ⟨"e", false, none, false, 0, 50, none, none⟩ 60
      (by decide) (by decide) (by decide) (by decide)⟩

/-- C5: on a well-formed identifier and a stored schema-valid session,
`updateSession` writes the transformed session back with exactly the TTL it
just read from the store (never the configured full TTL), and when that
remaining TTL is not positive it skips the write entirely while still
returning success. -/
theorem C5_update_preserves_ttl (keyPref sid : String)
    (updater : AuthSession → AuthSession) (s : AuthSession) (t : Int)
    (hid : sessionIdShapeOk (normalizeSessionId sid) = true) :
    (0 < t →
      updateSession keyPref sid updater (some (.valid s, t)) =
        (.ok (), some (.valid (updater s), t),
          [.get (keyPref ++ normalizeSessionId sid),
           .ttl (keyPref ++ normalizeSessionId sid),
           .setex (keyPref ++ normalizeSessionId sid) t])) ∧
    (t ≤ 0 →
      updateSession keyPref sid updater (some (.valid s, t)) =
        (.ok (), some (.valid s, t),
          [.get (keyPref ++ normalizeSessionId sid),
           .ttl (keyPref ++ normalizeSessionId sid)])) := by
  constructor
  · intro ht
    simp [updateSession, hid, ht]
  · intro ht
    simp [updateSession, hid, show ¬ 0 < t by omega]

theorem C5_update_preserves_ttl_witness :
    (sessionIdShapeOk (normalizeSessionId ⟨List.replicate 64 'c'⟩) = true) ∧
    ((0 < (7 : Int) →
      updateSession "auth_session:" ⟨List.replicate 64 'c'⟩
          (fun s => { s with emailVerified := true })
          (some (.valid ⟨"e", false, none, false, 0, 99, none, none⟩, 7)) =
        (.ok (),
          some (.valid ({ (⟨"e", false, none, false, 0, 99, none, none⟩ : AuthSession)
            with emailVerified := true }), 7),
          [.get ("auth_session:" ++ normalizeSessionId ⟨List.replicate 64 'c'⟩),
           .ttl ("auth_session:" ++ normalizeSessionId ⟨List.replicate 64 'c'⟩),
           .setex ("auth_session:" ++ normalizeSessionId ⟨List.replicate 64 'c'⟩) 7])) ∧
     ((7 : Int) ≤ 0 →
      updateSession "auth_session:" ⟨List.replicate 64 'c'⟩
          (fun s => { s with emailVerified := true })
          (some (.valid ⟨"e", false, none, false, 0, 99, none, none⟩, 7)) =
        (.ok (), some (.valid ⟨"e", false, none, false, 0, 99, none, none⟩, 7),
          [.get ("auth_session:" ++ normalizeSessionId ⟨List.replicate 64 'c'⟩),
           .ttl ("auth_session:" ++ normalizeSessionId ⟨List.replicate 64 'c'⟩)]))) :=
  ⟨by decide,
    C5_update_preserves_ttl "auth_session:" ⟨List.replicate 64 'c'⟩
      (fun s => { s with emailVerified := true })
      ⟨"e", false, none, false, 0, 99, none, none⟩ 7 (by decide)⟩

/-- The shape the claim C9 literally demands of identifiers: exactly 64
lowercase hex characters. -/
def lowercaseHex64 (s : String) : Bool :=
  s.length == 64 && s.data.all (fun c => c.isDigit || ('a' ≤ c && c ≤ 'f'))

/-- C9 (as stated, refuted): an identifier of 64 uppercase hex characters
is not 64 lowercase hex characters, yet `getSession` normalizes it and hits
the store with a `get` instead of rejecting it. -/
theorem C9_counterexample :
    lowercaseHex64 ⟨List.replicate 64 'A'⟩ = false ∧
    (getSession "auth_session:" ⟨List.replicate 64 'A'⟩ none 0).2.2 =
      [.get ("auth_session:" ++ (⟨List.replicate 64 'a'⟩ : String))] ∧
    (getSession "auth_session:" ⟨List.replicate 64 'A'⟩ none 0).2.2 ≠
      ([] : List RedisOp) := by
  refine ⟨by decide, by decide, by decide⟩

/-- C9 (amended): identifiers are first normalized (trimmed and
lowercased); whenever the normalized identifier is not exactly 64 hex
characters, `getSession`, `updateSession` and `deleteSession` reject it
and issue no store operation at all — uppercase or whitespace-padded
identifiers of valid shape are instead accepted after normalization. -/
theorem C9_reject_before_store (keyPref sid : String) (entry : SessionEntry)
    (now : Int) (updater : AuthSession → AuthSession)
    (h : sessionIdShapeOk (normalizeSessionId sid) = false) :
    getSession keyPref sid entry now =
      (.err "Session not found or expired", entry, []) ∧
    updateSession keyPref sid updater entry =
      (.err "Session not found", entry, []) ∧
    deleteSession keyPref sid entry = (entry, []) := by
  refine ⟨?_, ?_, ?_⟩ <;> simp [getSession, updateSession, deleteSession, h]

theorem C9_reject_before_store_witness :
    (sessionIdShapeOk (normalizeSessionId "not-a-session-id") = false) ∧
    (getSession "auth_session:" "not-a-session-id" none 0 =
      (.err "Session not found or expired", none, []) ∧
     updateSession "auth_session:" "not-a-session-id" id none =
      (.err "Session not found", none, []) ∧
     deleteSession "auth_session:" "not-a-session-id" none = (none, [])) :=
  ⟨by decide,
    C9_reject_before_store "auth_session:" "not-a-session-id" none 0 id (by decide)⟩

/-- C3: refresh coalescing.  A call arriving while a refresh is in flight
issues no new endpoint request and awaits the in-flight one; from an idle
manager, two calls in a row issue exactly one request, which both callers
await (hence both receive its one settled outcome); settling releases the
slot and records the outcome for that request; and only then does a third
call issue a fresh request. -/
theorem C3_refresh_coalescing (s : TokenManagerState) (c1 c2 c3 : Nat)
    (o : SettledOutcome) (hidle : s.inFlight = none) :
    (∀ (u : TokenManagerState) (rid caller : Nat), u.inFlight = some rid →
      (stepCall u caller).requests = u.requests ∧
      (stepCall u caller).inFlight = some rid ∧
      (caller, rid) ∈ (stepCall u caller).waiters) ∧
    (stepCall (stepCall s c1) c2).requests = s.nextId :: s.requests ∧
    (c1, s.nextId) ∈ (stepCall (stepCall s c1) c2).waiters ∧
    (c2, s.nextId) ∈ (stepCall (stepCall s c1) c2).waiters ∧
    (stepSettle (stepCall (stepCall s c1) c2) o).inFlight = none ∧
    (s.nextId, o) ∈ (stepSettle (stepCall (stepCall s c1) c2) o).settledOutcomes ∧
    (stepCall (stepSettle (stepCall (stepCall s c1) c2) o) c3).requests =
      (s.nextId + 1) :: s.nextId :: s.requests := by
  refine ⟨?_, ?_, ?_, ?_, ?_, ?_, ?_⟩
  · intro u rid caller hu
    refine ⟨?_, ?_, ?_⟩ <;> simp [stepCall, hu]
  all_goals simp [stepCall, stepSettle, hidle]

theorem C3_refresh_coalescing_witness :
    ((TokenManagerState.init).inFlight = none) ∧
    ((∀ (u : TokenManagerState) (rid caller : Nat), u.inFlight = some rid →
       (stepCall u caller).requests = u.requests ∧
       (stepCall u caller).inFlight = some rid ∧
       (caller, rid) ∈ (stepCall u caller).waiters) ∧
     (stepCall (stepCall TokenManagerState.init 10) 11).requests =
       TokenManagerState.init.nextId :: TokenManagerState.init.requests ∧
     (10, TokenManagerState.init.nextId) ∈
       (stepCall (stepCall TokenManagerState.init 10) 11).waiters ∧
     (11, TokenManagerState.init.nextId) ∈
       (stepCall (stepCall TokenManagerState.init 10) 11).waiters ∧
     (stepSettle (stepCall (stepCall TokenManagerState.init 10) 11)
       (.failure .responseInvalid)).inFlight = none ∧
     (TokenManagerState.init.nextId, SettledOutcome.failure .responseInvalid) ∈
       (stepSettle (stepCall (stepCall TokenManagerState.init 10) 11)
         (.failure .responseInvalid)).settledOutcomes ∧
     (stepCall (stepSettle (stepCall (stepCall TokenManagerState.init 10) 11)
         (.failure .responseInvalid)) 12).requests =
       (TokenManagerState.init.nextId + 1) :: TokenManagerState.init.nextId ::
         TokenManagerState.init.requests) :=
  ⟨rfl, C3_refresh_coalescing TokenManagerState.init 10 11 12
    (.failure .responseInvalid) rfl⟩

/-- C8: with a locally well-formed stored refresh token, the refresh
accepts the endpoint's response only when all three fields are present with
their wire types; any missing or mistyped field fails the refresh with the
local tokens cleared, and a blank `accessToken` or `refreshToken` is
likewise rejected — the repository's secure-store `setTokens` validates
with `StoredTokensSchema` (`.min(1)`) inside the refresh's `try`, so the
thrown validation error is caught, local tokens are cleared and the refresh
fails.  Conversely a successful refresh certifies all three fields were
present and the two tokens nonempty. -/
theorem C8_refresh_wire_contract (cur : StoredTokens) (resp : RawRefreshResponse)
    (now : Int) (hcur1 : cur.refreshToken ≠ "")
    (hcur2 : cur.refreshToken.length ≤ 4096)
    (hcur3 : hasWhitespace cur.refreshToken = false) :
    (parseRefreshResponse resp = none →
      refreshTokens (some cur) resp now = (.error .responseInvalid, none)) ∧
    (∀ a t e, resp = ⟨.str a, .str t, .num e⟩ → (a = "" ∨ t = "") →
      refreshTokens (some cur) resp now = (.error .storeRejected, none)) ∧
    (∀ tokens st, refreshTokens (some cur) resp now = (.ok tokens, st) →
      ∃ a t e, resp = ⟨.str a, .str t, .num e⟩ ∧ a ≠ "" ∧ t ≠ "" ∧
        tokens = ⟨a, t, now + e * 1000⟩ ∧ st = some tokens) := by
  have hlen : ¬ 4096 < cur.refreshToken.length := by omega
  refine ⟨?_, ?_, ?_⟩
  · intro hp
    simp [refreshTokens, hcur1, hcur3, hlen, hp]
  · rintro a t e rfl hblank
    have hp : parseRefreshResponse ⟨.str a, .str t, .num e⟩ = some ⟨a, t, e⟩ := rfl
    have hbad : storedTokensSchemaOk ⟨a, t, now + e * 1000⟩ = false := by
      rcases hblank with rfl | rfl <;> simp [storedTokensSchemaOk]
    simp [refreshTokens, hcur1, hcur3, hlen, hp, hbad]
  · intro tokens st h
    rcases resp with ⟨fa, ft, fe⟩
    rcases fa with a | a2 | _ | _ <;> rcases ft with t | t2 | _ | _ <;>
      rcases fe with e2 | e | _ | _ <;>
      simp [refreshTokens, parseRefreshResponse, hcur1, hcur3, hlen] at h
    rcases hok : storedTokensSchemaOk ⟨a, t, now + e * 1000⟩ with _ | _
    · simp [hok] at h
    · simp [hok] at h
      have ha : a ≠ "" := by
        intro hae
        rw [hae] at hok
        simp [storedTokensSchemaOk] at hok
      have htt : t ≠ "" := by
        intro hte
        rw [hte] at hok
        simp [storedTokensSchemaOk] at hok
      exact ⟨a, t, e, rfl, ha, htt, h.1.symm, by rw [← h.2, h.1]⟩

theorem C8_refresh_wire_contract_witness :
    ((("rtok" : String) ≠ "") ∧ (("rtok" : String).length ≤ 4096) ∧
      (hasWhitespace "rtok" = false)) ∧
    ((parseRefreshResponse ⟨.missing, .str "x", .num 60⟩ = none →
      refreshTokens (some ⟨"acc", "rtok", 0⟩) ⟨.missing, .str "x", .num 60⟩ 5 =
        (.error .responseInvalid, none)) ∧
     (∀ a t e, (⟨.missing, .str "x", .num 60⟩ : RawRefreshResponse) =
        ⟨.str a, .str t, .num e⟩ → (a = "" ∨ t = "") →
      refreshTokens (some ⟨"acc", "rtok", 0⟩) ⟨.missing, .str "x", .num 60⟩ 5 =
        (.error .storeRejected, none)) ∧
     (∀ tokens st,
      refreshTokens (some ⟨"acc", "rtok", 0⟩) ⟨.missing, .str "x", .num 60⟩ 5 =
        (.ok tokens, st) →
      ∃ a t e, (⟨.missing, .str "x", .num 60⟩ : RawRefreshResponse) =
          ⟨.str a, .str t, .num e⟩ ∧ a ≠ "" ∧ t ≠ "" ∧
        tokens = ⟨a, t, 5 + e * 1000⟩ ∧ st = some tokens)) :=
  ⟨⟨by decide, by decide, by decide⟩,
    C8_refresh_wire_contract ⟨"acc", "rtok", 0⟩ ⟨.missing, .str "x", .num 60⟩ 5
      (by decide) (by decide) (by decide)⟩

theorem head_dropWhile_false {α : Type} (p : α → Bool) (l : List α) (c : α)
    (h : (l.dropWhile p).head? = some c) : p c = false := by
  induction l with
  | nil => simp [List.dropWhile] at h
  | cons x xs ih =>
    rw [List.dropWhile_cons] at h
    by_cases hx : p x = true
    · rw [if_pos hx] at h
      exact ih h
    · rw [if_neg hx] at h
      simp at h
      subst h
      simpa using hx

theorem mem_of_mem_jsTrim {s : String} {c : Char} (h : c ∈ (jsTrim s).data) :
    c ∈ s.data := by
  simp only [jsTrim] at h
  rw [List.mem_reverse] at h
  have h2 := (List.dropWhile_suffix jsIsWhitespace).subset h
  rw [List.mem_reverse] at h2
  exact (List.dropWhile_suffix jsIsWhitespace).subset h2

theorem jsTrim_head {s : String} {c : Char} (h : (jsTrim s).data.head? = some c) :
    jsIsWhitespace c = false := by
  simp only [jsTrim] at h
  rw [List.head?_reverse] at h
  obtain ⟨r, hr⟩ :=
    List.dropWhile_suffix (l := (s.data.dropWhile jsIsWhitespace).reverse) jsIsWhitespace
  have hne : (s.data.dropWhile jsIsWhitespace).reverse.dropWhile jsIsWhitespace ≠ [] := by
    intro he
    rw [he] at h
    simp at h
  have hlast : (s.data.dropWhile jsIsWhitespace).reverse.getLast? = some c := by
    rw [← hr, List.getLast?_append_of_ne_nil r hne, h]
  rw [List.getLast?_reverse] at hlast
  exact head_dropWhile_false _ _ _ hlast

theorem jsTrim_last {s : String} {c : Char} (h : (jsTrim s).data.getLast? = some c) :
    jsIsWhitespace c = false := by
  simp only [jsTrim] at h
  rw [List.getLast?_reverse] at h
  exact head_dropWhile_false _ _ _ h

theorem toNat_ofNat_valid (n : Nat) (h : n.isValidChar) : (Char.ofNat n).toNat = n := by
  simp [Char.ofNat, h, Char.ofNatAux, Char.toNat, UInt32.toNat, BitVec.toNat_ofNatLt]

/-- `Char.toLower` never yields an ASCII uppercase letter. -/
theorem toLower_not_upper (c : Char) :
    ¬(65 ≤ (Char.toLower c).toNat ∧ (Char.toLower c).toNat ≤ 90) := by
  rw [Char.toLower]
  by_cases h : c.toNat ≥ 65 ∧ c.toNat ≤ 90
  · rw [if_pos h, toNat_ofNat_valid (c.toNat + 32) (Or.inl (by omega))]
    omega
  · rw [if_neg h]
    omega

/-- C7 (as stated, refuted): `replace(/[^\d+]/g, "")` keeps every plus
sign, wherever it occurs — `normalizePhone "1+1"` is `"1+1"`, whose
character at position 1 is `'+'`, so the result does not contain `'+'`
only at position 0. -/
theorem C7_counterexample :
    normalizePhone "1+1" = "1+1" ∧
    (normalizePhone "1+1").data[1]? = some '+' ∧
    '+' ∈ (normalizePhone "1+1").data.tail := by
  refine ⟨by decide, by decide, by decide⟩

/-- C7 (amended): `normalizeEmail` lowercases and trims — its output
contains no ASCII uppercase letter and neither starts nor ends with a JS
whitespace character; `normalizePhone` strips every character except
digits and plus signs (all plus signs are kept, wherever they occur), so
only for inputs whose plus signs are confined to the leading position is
the normalized result guaranteed to contain `'+'` at position 0 alone. -/
theorem C7_normalization (s sp : String)
    (hsp : ∀ c ∈ sp.data.tail, c ≠ '+') :
    (∀ c ∈ (normalizeEmail s).data, ¬(65 ≤ c.toNat ∧ c.toNat ≤ 90)) ∧
    (∀ c, (normalizeEmail s).data.head? = some c → jsIsWhitespace c = false) ∧
    (∀ c, (normalizeEmail s).data.getLast? = some c → jsIsWhitespace c = false) ∧
    (∀ c ∈ (normalizePhone sp).data, c.isDigit = true ∨ c = '+') ∧
    (∀ c ∈ (normalizePhone sp).data.tail, c ≠ '+') := by
  refine ⟨?_, fun c h => jsTrim_head h, fun c h => jsTrim_last h, ?_, ?_⟩
  · intro c hc
    have hmem : c ∈ (jsToLower s).data := mem_of_mem_jsTrim hc
    simp only [jsToLower, List.mem_map] at hmem
    obtain ⟨c0, _, rfl⟩ := hmem
    exact toLower_not_upper c0
  · intro c hc
    simp only [normalizePhone, List.mem_filter, Bool.or_eq_true, beq_iff_eq] at hc
    exact hc.2
  · simp only [normalizePhone]
    rcases hd : sp.data with _ | ⟨x, xs⟩
    · simp
    · have hxs : ∀ c ∈ xs, c ≠ '+' := by
        intro c hc
        apply hsp
        rw [hd]
        simpa using hc
      rw [List.filter_cons]
      by_cases hx : (x.isDigit || x == '+') = true
      · rw [if_pos hx]
        intro c hc
        exact hxs c (List.mem_of_mem_filter hc)
      · rw [if_neg hx]
        intro c hc
        exact hxs c (List.mem_of_mem_filter (List.mem_of_mem_tail hc))

theorem C7_normalization_witness :
    (∀ c ∈ ("+1 (415) 555-0000" : String).data.tail, c ≠ '+') ∧
    ((∀ c ∈ (normalizeEmail " User@Example.Com ").data,
        ¬(65 ≤ c.toNat ∧ c.toNat ≤ 90)) ∧
     (∀ c, (normalizeEmail " User@Example.Com ").data.head? = some c →
        jsIsWhitespace c = false) ∧
     (∀ c, (normalizeEmail " User@Example.Com ").data.getLast? = some c →
        jsIsWhitespace c = false) ∧
     (∀ c ∈ (normalizePhone "+1 (415) 555-0000").data, c.isDigit = true ∨ c = '+') ∧
     (∀ c ∈ (normalizePhone "+1 (415) 555-0000").data.tail, c ≠ '+')) :=
  ⟨by decide, C7_normalization " User@Example.Com " "+1 (415) 555-0000" (by decide)⟩

/-- Decimal value of a code string (each character contributing
`toNat - 48`), used to state what `generateRandomCode` encodes. -/
def decodeDec (s : String) : Nat :=
  s.data.foldl (fun acc c => 10 * acc + (c.toNat - 48)) 0

theorem foldl_digitChar (ds : List Nat) (acc : Nat) (h : ∀ d ∈ ds, d < 10) :
    List.foldl (fun acc c => 10 * acc + (c.toNat - 48)) acc (ds.reverse.map digitChar) =
      acc * 10 ^ ds.length + Nat.ofDigits 10 ds := by
  induction ds generalizing acc with
  | nil => simp [Nat.ofDigits]
  | cons d rest ih =>
    have hd : d < 10 := h d (List.mem_cons_self _ _)
    have hrest : ∀ x ∈ rest, x < 10 := fun x hx => h x (List.mem_cons_of_mem _ hx)
    rw [List.reverse_cons, List.map_append, List.foldl_append, ih acc hrest]
    simp only [List.map_cons, List.map_nil, List.foldl_cons, List.foldl_nil]
    rw [show (digitChar d).toNat = 48 + d from
        toNat_ofNat_valid (48 + d) (Or.inl (by omega)),
      Nat.ofDigits_cons, List.length_cons, pow_succ]
    have hsub : 48 + d - 48 = d := by omega
    rw [hsub]
    ring

theorem foldl_replicate_zero (k : Nat) :
    List.foldl (fun acc c => 10 * acc + (c.toNat - 48)) 0 (List.replicate k '0') = 0 := by
  induction k with
  | zero => rfl
  | succ m ih =>
    rw [List.replicate_succ, List.foldl_cons]
    simpa using ih

theorem padStart_data (s : String) (k : Nat) (c : Char) (h : s.length ≤ k) :
    (padStart s k c).data = List.replicate (k - s.length) c ++ s.data := by
  unfold padStart
  by_cases hk : k ≤ s.length
  · rw [if_pos hk]
    have h0 : k - s.length = 0 := by omega
    rw [h0]
    simp
  · rw [if_neg hk]

theorem natToString_data_pos (m : Nat) (hm : m ≠ 0) :
    (natToString m).data = (Nat.digits 10 m).reverse.map digitChar := by
  rw [natToString, if_neg hm]

theorem natToString_length_le (m : Nat) (h : m < 10 ^ 6) :
    (natToString m).length ≤ 6 := by
  rcases eq_or_ne m 0 with rfl | hm
  · decide
  · have hdl : (Nat.digits 10 m).length ≤ 6 := by
      rw [Nat.digits_len 10 m (by norm_num) hm]
      have := Nat.log_lt_of_lt_pow hm h
      omega
    show (natToString m).data.length ≤ 6
    rw [natToString_data_pos m hm]
    simpa using hdl

/-- What the generated code encodes: reading its six characters back as
decimal digits recovers the 32-bit sample reduced mod `10 ^ 6`. -/
theorem decodeDec_generateRandomCode (n : Nat) :
    decodeDec (generateRandomCode n) = n % 10 ^ 6 := by
  have hlt : n % 10 ^ 6 < 10 ^ 6 := Nat.mod_lt _ (by norm_num)
  have hlen : (natToString (n % 10 ^ 6)).length ≤ 6 := natToString_length_le _ hlt
  unfold decodeDec generateRandomCode
  rw [padStart_data _ 6 '0' hlen, List.foldl_append, foldl_replicate_zero]
  rcases eq_or_ne (n % 10 ^ 6) 0 with h0 | h0
  · rw [h0]
    decide
  · rw [natToString_data_pos _ h0,
      foldl_digitChar _ 0 (fun d hd => Nat.digits_lt_base (by norm_num) hd)]
    simp [Nat.ofDigits_digits]

/-- The code depends on the sample exactly through its residue mod `10 ^ 6`. -/
theorem generateRandomCode_eq_iff (c n : Nat) (hc : c < 10 ^ 6) :
    generateRandomCode n = generateRandomCode c ↔ n % 10 ^ 6 = c := by
  constructor
  · intro h
    have hdec := congrArg decodeDec h
    rw [decodeDec_generateRandomCode, decodeDec_generateRandomCode] at hdec
    rw [hdec]
    exact Nat.mod_eq_of_lt hc
  · intro h
    unfold generateRandomCode
    rw [h, Nat.mod_eq_of_lt hc]

theorem card_range_filter_mod (c : Nat) (hc : c < 1000000) :
    ((Finset.range 4294967296).filter (fun n => n % 1000000 = c)).card =
      (4295967295 - c) / 1000000 := by
  have himg : (Finset.range 4294967296).filter (fun n => n % 1000000 = c) =
      (Finset.range ((4295967295 - c) / 1000000)).image (fun k => 1000000 * k + c) := by
    ext n
    simp only [Finset.mem_filter, Finset.mem_range, Finset.mem_image]
    constructor
    · rintro ⟨hn, hmod⟩
      exact ⟨n / 1000000, by omega, by omega⟩
    · rintro ⟨k, hk, rfl⟩
      exact ⟨by omega, by omega⟩
  rw [himg, Finset.card_image_of_injective _ (fun a b hab => by omega),
    Finset.card_range]

theorem generateRandomCode_card (c : Nat) (hc : c < 10 ^ 6) :
    ((Finset.range (2 ^ 32)).filter
        (fun k => generateRandomCode k = generateRandomCode c)).card =
      (4295967295 - c) / 1000000 := by
  have hiff : ∀ k ∈ Finset.range (2 ^ 32),
      (generateRandomCode k = generateRandomCode c) ↔ (k % 1000000 = c) := by
    intro k _
    rw [generateRandomCode_eq_iff c k hc]
    norm_num
  have hc' : c < 1000000 := by
    have hp : (10 : Nat) ^ 6 = 1000000 := by norm_num
    omega
  rw [Finset.filter_congr hiff, show (2 : Nat) ^ 32 = 4294967296 by norm_num,
    card_range_filter_mod c hc']

theorem digitChar_isDigit (d : Nat) (h : d < 10) : (digitChar d).isDigit = true := by
  interval_cases d <;> decide

theorem generateRandomCode_zero : generateRandomCode 0 = "000000" := by decide

theorem generateRandomCode_999999 : generateRandomCode 999999 = "999999" := by
  have hd : Nat.digits 10 999999 = [9, 9, 9, 9, 9, 9] := by norm_num
  have hm : (999999 : Nat) % 10 ^ 6 = 999999 := by norm_num
  have hs : natToString 999999 = ⟨(Nat.digits 10 999999).reverse.map digitChar⟩ := by
    rw [natToString, if_neg (by norm_num)]
  unfold generateRandomCode
  rw [hm, hs, hd]
  decide

/-- C6 (as stated, refuted): the mapping `n ↦ (n % 10 ^ 6)` from 32-bit
samples to codes is not exactly uniform — `2 ^ 32` is not a multiple of
`10 ^ 6`, so the code `"000000"` has 4295 preimages among the `2 ^ 32`
samples while `"999999"` has only 4294. -/
theorem C6_counterexample :
    ((Finset.range (2 ^ 32)).filter
      (fun n => generateRandomCode n = "000000")).card = 4295 ∧
    ((Finset.range (2 ^ 32)).filter
      (fun n => generateRandomCode n = "999999")).card = 4294 ∧
    (4295 : Nat) ≠ 4294 := by
  refine ⟨?_, ?_, by norm_num⟩
  · rw [show ("000000" : String) = generateRandomCode 0 from generateRandomCode_zero.symm,
      generateRandomCode_card 0 (by norm_num)]
  · rw [show ("999999" : String) = generateRandomCode 999999 from
        generateRandomCode_999999.symm,
      generateRandomCode_card 999999 (by norm_num)]

/-- C6 (amended): the generated code is always a 6-character string of
decimal digits encoding `n % 10 ^ 6` (hence a value in `[0, 10 ^ 6)`), and
its distribution over a uniform 32-bit sample is only near-uniform: a code
with value `c` has `4295` of the `2 ^ 32` preimages when
`c < 2 ^ 32 % 10 ^ 6 = 967296` and `4294` otherwise. -/
theorem C6_code_distribution (n c : Nat) (hc : c < 10 ^ 6) :
    (generateRandomCode n).length = 6 ∧
    (∀ ch ∈ (generateRandomCode n).data, ch.isDigit = true) ∧
    decodeDec (generateRandomCode n) = n % 10 ^ 6 ∧
    n % 10 ^ 6 < 10 ^ 6 ∧
    ((Finset.range (2 ^ 32)).filter
        (fun k => generateRandomCode k = generateRandomCode c)).card =
      if c < 967296 then 4295 else 4294 := by
  have hlt : n % 10 ^ 6 < 10 ^ 6 := Nat.mod_lt _ (by norm_num)
  have hlen : (natToString (n % 10 ^ 6)).length ≤ 6 := natToString_length_le _ hlt
  have hdata : (generateRandomCode n).data =
      List.replicate (6 - (natToString (n % 10 ^ 6)).length) '0' ++
        (natToString (n % 10 ^ 6)).data := by
    unfold generateRandomCode
    exact padStart_data _ 6 '0' hlen
  refine ⟨?_, ?_, decodeDec_generateRandomCode n, hlt, ?_⟩
  · show (generateRandomCode n).data.length = 6
    rw [hdata]
    simp only [List.length_append, List.length_replicate]
    have : (natToString (n % 10 ^ 6)).data.length = (natToString (n % 10 ^ 6)).length := rfl
    omega
  · intro ch hch
    rw [hdata, List.mem_append] at hch
    rcases hch with hch | hch
    · rw [List.eq_of_mem_replicate hch]
      decide
    · rcases eq_or_ne (n % 10 ^ 6) 0 with h0 | h0
      · rw [h0] at hch
        have hch' : ch = '0' := by
          have hd0 : (natToString 0).data = ['0'] := rfl
          rw [hd0] at hch
          simpa using hch
        rw [hch']
        decide
      · rw [natToString_data_pos _ h0, List.mem_map] at hch
        obtain ⟨d, hdm, rfl⟩ := hch
        exact digitChar_isDigit d
          (Nat.digits_lt_base (by norm_num) (List.mem_reverse.mp hdm))
  · rw [generateRandomCode_card c hc]
    have hc' : c < 1000000 := by
      have hp : (10 : Nat) ^ 6 = 1000000 := by norm_num
      omega
    rcases Nat.lt_or_ge c 967296 with h | h
    · rw [if_pos h]
      omega
    · rw [if_neg (by omega)]
      omega

theorem C6_code_distribution_witness :
    ((0 : Nat) < 10 ^ 6) ∧
    ((generateRandomCode 123).length = 6 ∧
     (∀ ch ∈ (generateRandomCode 123).data, ch.isDigit = true) ∧
     decodeDec (generateRandomCode 123) = 123 % 10 ^ 6 ∧
     123 % 10 ^ 6 < 10 ^ 6 ∧
     ((Finset.range (2 ^ 32)).filter
         (fun k => generateRandomCode k = generateRandomCode 0)).card =
       if (0 : Nat) < 967296 then 4295 else 4294) :=
  ⟨by norm_num, C6_code_distribution 123 0 (by norm_num)⟩

end SimpleAuth
